import Mathlib

/-!
Verification of the integrations service (OAuth connection lifecycle and
incremental sync engine) against its natural-language specification.

The Python sources are shallowly embedded: each handler or helper becomes an
executable Lean function over explicit record states; database tables become
lists of row records; timestamps become natural numbers; fallible code returns
`Except`.  External collaborators (the Fernet cipher library, the Gmail remote
API, base64 decoding) are modelled at their documented interfaces.
-/

namespace IntegrationsSvc

namespace Security

/-- Errors raised by the token-cipher layer: `ValueError` from `encrypt` on
empty or absent input, `InvalidToken` from Fernet on a ciphertext failing its
authentication or format check (src/security/tokens.py lines 26-45). -/
inductive CipherError where
  | valueError (msg : String)
  | invalidToken (msg : String)
deriving DecidableEq, Repr

/-- Version marker of a Fernet token.  A real Fernet token is the urlsafe
base64 encoding of `0x80 || timestamp || IV || AES-CBC ciphertext || HMAC`,
so it always starts with the characters "gAAAAA". -/
def fernetVersionMarker : List Char := ['g', 'A', 'A', 'A', 'A', 'A']

/-- Interface model of `cryptography.fernet.Fernet.encrypt` (an external
library, modelled at its contract): a keyed, reversible, authenticated
encoding.  The model token is the version marker, the key material, and the
payload; the cryptographic scrambling itself is irrelevant to every claim,
which only need that decryption inverts encryption, that a token not produced
under the same key fails authentication, and that a token differs from its
plaintext. -/
def fernetToken (key : String) (plaintext : String) : String :=
  String.mk (fernetVersionMarker ++ key.data ++ plaintext.data)

/-- Interface model of the Fernet authentication/format check: a ciphertext
authenticates under `key` exactly when it was produced by `fernetToken key`. -/
def fernetWellFormed (key : String) (c : String) : Bool :=
  (fernetVersionMarker ++ key.data).isPrefixOf c.data

/-- Payload recovered from a well-formed Fernet token. -/
def fernetPlaintext (key : String) (c : String) : String :=
  String.mk (c.data.drop (fernetVersionMarker.length + key.data.length))

/-- Embedding of `TokenCipher` (src/security/tokens.py lines 21-45): a wrapper
holding the single process-wide Fernet key. -/
structure TokenCipher where
  key : String
deriving DecidableEq, Repr

/-- Embedding of `TokenCipher.encrypt` (src/security/tokens.py lines 26-34).
`None` input and the empty string each raise `ValueError`; otherwise the
UTF-8 bytes are Fernet-encrypted.  The absent (`None`) argument case is made
explicit with `Option`. -/
def TokenCipher.encrypt (c : TokenCipher) (plaintext_token : Option String) :
    Except CipherError String :=
  match plaintext_token with
  | none => .error (.valueError "Cannot encrypt None.")
  | some s =>
      if s = "" then .error (.valueError "Cannot encrypt empty string")
      else .ok (fernetToken c.key s)

/-- Embedding of `TokenCipher.decrypt` (src/security/tokens.py lines 36-45).
A falsy ciphertext (absent or empty) returns `None`; a non-empty ciphertext
failing the Fernet authentication/format check raises `InvalidToken`. -/
def TokenCipher.decrypt (c : TokenCipher) (ciphertext : Option String) :
    Except CipherError (Option String) :=
  match ciphertext with
  | none => .ok none
  | some s =>
      if s = "" then .ok none
      else if fernetWellFormed c.key s then .ok (some (fernetPlaintext c.key s))
      else .error (.invalidToken "Invalid token.")

theorem fernetWellFormed_token (key s : String) :
    fernetWellFormed key (fernetToken key s) = true := by
  simp [fernetWellFormed, fernetToken, List.isPrefixOf_iff_prefix, List.append_assoc]

theorem fernetPlaintext_token (key s : String) :
    fernetPlaintext key (fernetToken key s) = s := by
  unfold fernetPlaintext fernetToken
  have h : (fernetVersionMarker ++ key.data ++ s.data).drop
      (fernetVersionMarker.length + key.data.length) = s.data := by
    rw [List.append_assoc, List.drop_append_eq_append_drop]
    simp
  rw [h]

theorem fernetToken_length (key s : String) :
    (fernetToken key s).length = 6 + key.length + s.length := by
  have h : (fernetToken key s).length = (fernetVersionMarker ++ key.data ++ s.data).length := rfl
  have hk : key.length = key.data.length := rfl
  have hs : s.length = s.data.length := rfl
  rw [h, hk, hs]
  simp [fernetVersionMarker]
  omega

/-- A Fernet token is strictly longer than its plaintext, hence never equal to
it: tokens are stored only in encrypted form. -/
theorem fernetToken_ne_plaintext (key s : String) : fernetToken key s ≠ s := by
  intro h
  have hl : (fernetToken key s).length = s.length := by rw [h]
  rw [fernetToken_length] at hl
  omega

/-- C7: for every non-empty string `s`, `decrypt (encrypt s) = s`; `encrypt`
raises `ValueError` on an empty string and on an absent value; `decrypt` of an
absent or empty ciphertext returns `None` without error; and `decrypt` of a
non-empty ciphertext failing the Fernet authentication/format check raises
`InvalidToken`. -/
theorem tokenCipher_contract (c : TokenCipher) (s junk : String)
    (hs : s ≠ "") (hjunk : junk ≠ "")
    (hbad : fernetWellFormed c.key junk = false) :
    (∃ t, c.encrypt (some s) = .ok t ∧ c.decrypt (some t) = .ok (some s) ∧ t ≠ s)
    ∧ (∃ m, c.encrypt (some "") = .error (.valueError m))
    ∧ (∃ m, c.encrypt none = .error (.valueError m))
    ∧ c.decrypt none = .ok none
    ∧ c.decrypt (some "") = .ok none
    ∧ (∃ m, c.decrypt (some junk) = .error (.invalidToken m)) := by
  refine ⟨⟨fernetToken c.key s, ?_, ?_, fernetToken_ne_plaintext c.key s⟩,
    ⟨"Cannot encrypt empty string", by simp [TokenCipher.encrypt]⟩,
    ⟨"Cannot encrypt None.", rfl⟩, rfl, rfl, ⟨"Invalid token.", ?_⟩⟩
  · simp [TokenCipher.encrypt, hs]
  · have hne : fernetToken c.key s ≠ "" := by
      intro h
      have hlen := fernetToken_length c.key s
      rw [h, String.length_empty] at hlen
      omega
    have h1 : TokenCipher.decrypt c (some (fernetToken c.key s)) =
        if fernetToken c.key s = "" then .ok none
        else if fernetWellFormed c.key (fernetToken c.key s) then
          .ok (some (fernetPlaintext c.key (fernetToken c.key s)))
        else .error (.invalidToken "Invalid token.") := rfl
    rw [h1, if_neg hne, fernetWellFormed_token, fernetPlaintext_token]
    simp
  · simp [TokenCipher.decrypt, hjunk, hbad]

/-- Witness instantiating `tokenCipher_contract` on a concrete key, plaintext
and tampered ciphertext. -/
theorem tokenCipher_contract_witness :
    ("tok" ≠ "" ∧ "bad" ≠ "" ∧ fernetWellFormed "k0" "bad" = false)
    ∧ ((∃ t, (TokenCipher.mk "k0").encrypt (some "tok") = .ok t ∧
          (TokenCipher.mk "k0").decrypt (some t) = .ok (some "tok") ∧ t ≠ "tok")
      ∧ (∃ m, (TokenCipher.mk "k0").encrypt (some "") = .error (.valueError m))
      ∧ (∃ m, (TokenCipher.mk "k0").encrypt none = .error (.valueError m))
      ∧ (TokenCipher.mk "k0").decrypt none = .ok none
      ∧ (TokenCipher.mk "k0").decrypt (some "") = .ok none
      ∧ (∃ m, (TokenCipher.mk "k0").decrypt (some "bad") = .error (.invalidToken m))) :=
  ⟨⟨by decide, by decide, by decide⟩,
    tokenCipher_contract (TokenCipher.mk "k0") "tok" "bad"
      (by decide) (by decide) (by decide)⟩

end Security

namespace GmailSvc

/-- One MIME header as returned by the Gmail API: a name/value pair. -/
structure Header where
  name : String
  value : String
deriving DecidableEq, Repr

/-- Model of the Python `str.lower` used on (ASCII) header names: lower-case
each character. -/
def pyLower (s : String) : String := String.mk (s.data.map Char.toLower)

/-- Embedding of `get_header` (src/services/sync/gmail.py lines 86-90): value
of the first header whose name matches case-insensitively, else `None`. -/
def get_header (headers : List Header) (name : String) : Option String :=
  match headers with
  | [] => none
  | h :: rest =>
      if pyLower h.name = pyLower name then some h.value
      else get_header rest name

/-- Gmail message payload tree: a MIME type, an optional urlsafe-base64 body
payload (the `body.data` field; absent and empty are both falsy in the
source), and a list of sub-parts. -/
inductive Payload where
  | mk (mimeType : String) (bodyData : Option String) (parts : List Payload)

def Payload.mimeType : Payload → String
  | .mk m _ _ => m

def Payload.bodyData : Payload → Option String
  | .mk _ b _ => b

def Payload.parts : Payload → List Payload
  | .mk _ _ p => p

/-- Truthiness of a `body.data` field under the chained `.get` calls of the
source: present and non-empty. -/
def dataTruthy : Option String → Bool
  | none => false
  | some d => decide (d ≠ "")

/-- Embedding of the part loop of `extract_body` (src/services/sync/gmail.py
lines 97-102): scan the DIRECT children only; return the decoded data of
the first child whose MIME type is text/plain or text/html and whose body
carries data.  Base64 decoding is an external primitive passed as `decode`. -/
def extractFromParts (decode : String → String) : List Payload → Option String
  | [] => none
  | part :: rest =>
      if part.mimeType = "text/plain" ∨ part.mimeType = "text/html" then
        match part.bodyData with
        | some d => if d = "" then extractFromParts decode rest else some (decode d)
        | none => extractFromParts decode rest
      else extractFromParts decode rest

/-- Embedding of `extract_body` (src/services/sync/gmail.py lines 93-104):
top-level body data when truthy, else the direct-children scan. -/
def extract_body (decode : String → String) (p : Payload) : Option String :=
  match p.bodyData with
  | some d => if d = "" then extractFromParts decode p.parts else some (decode d)
  | none => extractFromParts decode p.parts

mutual

/-- Depth-first scan over a forest of payload parts, as the spec words it:
return the decoded data of the first text/plain-or-text/html node found in
preorder, recursing into nested multipart structures. -/
def dfsParts (decode : String → String) : List Payload → Option String
  | [] => none
  | p :: rest =>
      match dfsNode decode p with
      | some r => some r
      | none => dfsParts decode rest

/-- Depth-first scan of one payload node (spec wording, for comparison with
`extract_body`). -/
def dfsNode (decode : String → String) : Payload → Option String
  | .mk m b parts =>
      match b with
      | some d =>
          if (m = "text/plain" ∨ m = "text/html") ∧ d ≠ "" then some (decode d)
          else dfsParts decode parts
      | none => dfsParts decode parts

end

/-- Body extraction as described by the spec sentence for C8: the top-level
body when it carries data, else a depth-first traversal through nested
multipart structures. -/
def extract_body_dfs (decode : String → String) (p : Payload) : Option String :=
  match p.bodyData with
  | some d => if d = "" then dfsParts decode p.parts else some (decode d)
  | none => dfsParts decode p.parts

/-- Nested-multipart message whose only text part sits one level deeper than
the direct children of the payload. -/
def nestedPayload : Payload :=
  .mk "multipart/mixed" none
    [.mk "multipart/alternative" none
      [.mk "text/plain" (some "SGVsbG8=") []]]

/-- C8 counterexample: on a nested multipart payload, the code returns no body
at all, while the depth-first rule of the claim finds the nested text/plain
part; so the projection does not decode the first body part found by
depth-first traversal through nested multipart structures. -/
theorem extract_body_counterexample :
    extract_body (fun s => s) nestedPayload = none
    ∧ extract_body_dfs (fun s => s) nestedPayload = some "SGVsbG8="
    ∧ extract_body (fun s => s) nestedPayload
        ≠ extract_body_dfs (fun s => s) nestedPayload := by
  refine ⟨rfl, rfl, ?_⟩
  intro h
  simp [extract_body, extract_body_dfs, nestedPayload, dfsParts, dfsNode,
    extractFromParts, Payload.bodyData, Payload.parts, Payload.mimeType] at h

/-- Predicate picking the direct child parts that the code accepts: MIME type
text/plain or text/html with truthy body data. -/
def directBodyPart (q : Payload) : Bool :=
  decide ((q.mimeType = "text/plain" ∨ q.mimeType = "text/html")
    ∧ dataTruthy q.bodyData = true)

theorem extractFromParts_eq_find (decode : String → String) (ps : List Payload) :
    extractFromParts decode ps
      = (ps.find? directBodyPart).map (fun q => decode (q.bodyData.getD "")) := by
  induction ps with
  | nil => rfl
  | cons part rest ih =>
      rcases part with ⟨m, b, sub⟩
      by_cases hm : m = "text/plain" ∨ m = "text/html"
      · cases b with
        | none =>
            simp [extractFromParts, hm, List.find?, directBodyPart,
              Payload.mimeType, Payload.bodyData, dataTruthy, ih]
        | some d =>
            by_cases hd : d = ""
            · simp [extractFromParts, hm, hd, List.find?, directBodyPart,
                Payload.mimeType, Payload.bodyData, dataTruthy, ih]
            · simp [extractFromParts, hm, hd, List.find?, directBodyPart,
                Payload.mimeType, Payload.bodyData, dataTruthy, Option.getD]
      · simp [extractFromParts, hm, List.find?, directBodyPart,
          Payload.mimeType, Payload.bodyData, ih]

/-- C8 amended: the projection decodes the top-level body when it carries
data, and otherwise the first DIRECT child part of the payload with MIME type
text/plain or text/html that carries data — nested multipart structures are
not recursed into; envelope header lookup matches names case-insensitively. -/
theorem extract_body_shallow_scan (decode : String → String) (p : Payload)
    (headers : List Header) (n1 n2 : String)
    (hcase : pyLower n1 = pyLower n2) :
    get_header headers n1 = get_header headers n2
    ∧ (∀ d, p.bodyData = some d → d ≠ "" → extract_body decode p = some (decode d))
    ∧ (dataTruthy p.bodyData = false →
        extract_body decode p
          = (p.parts.find? directBodyPart).map (fun q => decode (q.bodyData.getD ""))) := by
  refine ⟨?_, ?_, ?_⟩
  · induction headers with
    | nil => rfl
    | cons h rest ih => simp [get_header, hcase, ih]
  · intro d hd hne
    simp [extract_body, hd, hne]
  · intro hfalsy
    cases hb : p.bodyData with
    | none => simp [extract_body, hb, extractFromParts_eq_find]
    | some d =>
        rw [hb] at hfalsy
        simp [dataTruthy] at hfalsy
        simp [extract_body, hb, hfalsy, extractFromParts_eq_find]

/-- Witness instantiating `extract_body_shallow_scan` on a concrete payload
and concrete mixed-case header names. -/
theorem extract_body_shallow_scan_witness :
    (pyLower "From" = pyLower "fRoM")
    ∧ (get_header [Header.mk "From" "a@b"] "From"
        = get_header [Header.mk "From" "a@b"] "fRoM"
      ∧ (∀ d, (Payload.mk "text/plain" (some "Qm9keQ==") []).bodyData = some d → d ≠ "" →
          extract_body (fun s => s) (Payload.mk "text/plain" (some "Qm9keQ==") []) = some ((fun s => s) d))
      ∧ (dataTruthy (Payload.mk "text/plain" (some "Qm9keQ==") []).bodyData = false →
          extract_body (fun s => s) (Payload.mk "text/plain" (some "Qm9keQ==") [])
            = ((Payload.mk "text/plain" (some "Qm9keQ==") []).parts.find? directBodyPart).map
                (fun q => (fun s => s) (q.bodyData.getD "")))) :=
  ⟨by decide,
    extract_body_shallow_scan (fun s => s) (Payload.mk "text/plain" (some "Qm9keQ==") [])
      [Header.mk "From" "a@b"] "From" "fRoM" (by decide)⟩

/-- One record of a Gmail `history.list` response: the ids of the messages in
its `messagesAdded` events (other event kinds are never consulted by the
source). -/
structure HistoryRecord where
  messagesAdded : List String
deriving DecidableEq, Repr

/-- One page of the Gmail `history.list` endpoint as consumed by the
incremental loop: its history records and its reported `historyId`.  A list of
pages models the successive responses obtained by following `nextPageToken`;
every page except the last carries a next-page token. -/
structure HistoryPage where
  history : List HistoryRecord
  historyId : Option String
deriving DecidableEq, Repr

/-- Message ids collected from one history page: the `messagesAdded` events of
each record, in order (src/services/sync/gmail.py lines 260-262). -/
def pageMessages (p : HistoryPage) : List String :=
  p.history.flatMap (fun h => h.messagesAdded)

/-- Embedding of the incremental while-loop of `gmail_sync_messages`
(src/services/sync/gmail.py lines 250-268).  Faithfully to the source, the
statement `new_history_id = res.get("historyId", new_history_id)` runs only
AFTER the `if not page_token: break` test, so it executes for every page
except the final one. -/
def incrementalLoop (cursor : String) (acc : List String) :
    List HistoryPage → List String × String
  | [] => (acc, cursor)
  | [p] => (acc ++ pageMessages p, cursor)
  | p :: q :: rest =>
      incrementalLoop (p.historyId.getD cursor) (acc ++ pageMessages p) (q :: rest)

/-- Embedding of the incremental-sync branch of `gmail_sync_messages`
(`sync_type = incremental` and a stored cursor exists; src/services/sync/
gmail.py lines 249-268 together with the returned dictionary, lines 300-306):
the collected message ids and the returned `last_history_id`. -/
def gmail_sync_messages_incremental (last_history_id : String)
    (pages : List HistoryPage) : List String × String :=
  incrementalLoop last_history_id [] pages

/-- Cursor update as the spec words it: adopt the cursor reported by the last
history page (keeping the previous cursor where a page omits the field). -/
def specFinalCursor (cursor : String) (pages : List HistoryPage) : String :=
  pages.foldl (fun c p => p.historyId.getD c) cursor

theorem incrementalLoop_messages (cursor : String) (acc : List String)
    (pages : List HistoryPage) :
    (incrementalLoop cursor acc pages).1 = acc ++ pages.flatMap pageMessages := by
  induction pages generalizing cursor acc with
  | nil => simp [incrementalLoop]
  | cons p rest ih =>
      cases rest with
      | nil => simp [incrementalLoop, pageMessages]
      | cons q rest2 => simp [incrementalLoop, ih, List.append_assoc]

/-- The incremental loop collects exactly the messages reported in the
`messagesAdded` history events, in page order. -/
theorem gmail_incremental_collects_added (last_history_id : String)
    (pages : List HistoryPage) :
    (gmail_sync_messages_incremental last_history_id pages).1
      = pages.flatMap pageMessages := by
  rw [gmail_sync_messages_incremental, incrementalLoop_messages]
  simp

/-- Single `history.list` response (no next-page token) reporting two added
messages and the new cursor H2. -/
def singleHistoryPage : HistoryPage :=
  HistoryPage.mk [HistoryRecord.mk ["m1", "m2"]] (some "H2")

/-- C2: evaluation of the incremental branch at the failing input.  With
stored cursor H1 and one history page reporting added messages m1, m2 and
cursor H2, the code does collect exactly the message-added events but returns
`last_history_id = "H1"` — the stored cursor — not the last page cursor H2
required by the claim, because the cursor-adoption statement sits after the
pagination `break`. -/
theorem gmail_incremental_stale_cursor :
    gmail_sync_messages_incremental "H1" [singleHistoryPage] = (["m1", "m2"], "H1")
    ∧ specFinalCursor "H1" [singleHistoryPage] = "H2"
    ∧ (gmail_sync_messages_incremental "H1" [singleHistoryPage]).2
        ≠ specFinalCursor "H1" [singleHistoryPage] := by
  refine ⟨rfl, rfl, ?_⟩
  intro h
  simp [gmail_sync_messages_incremental, incrementalLoop, specFinalCursor,
    singleHistoryPage] at h

end GmailSvc

/-- Supported OAuth providers (src/models/oauth.py lines 13-18). -/
inductive OAuthProvider where
  | gmail | google | slack | outlook
deriving DecidableEq, Repr

/-- Status of an OAuth connection (src/models/connection.py lines 18-24). -/
inductive ConnectionStatus where
  | pending | active | expired | revoked | failed
deriving DecidableEq, Repr

/-- Status of a sync job (src/models/sync.py lines 17-23). -/
inductive SyncStatus where
  | pending | running | completed | failed | cancelled
deriving DecidableEq, Repr

/-- Type of a sync operation (src/models/sync.py lines 25-29). -/
inductive SyncType where
  | full | incremental | manual
deriving DecidableEq, Repr

/-- Row of the `connections` table (src/models/connection.py lines 31-80).
Opaque ids and timestamps are embedded as naturals. -/
structure ConnectionRow where
  id : Nat
  user_id : Nat
  provider : OAuthProvider
  status : ConnectionStatus
  provider_account_id : Option String
  access_token : Option String
  refresh_token : Option String
  scopes : Option (List String)
  access_token_expiry : Option Nat
  last_history_id : Option String
  created_at : Nat
  updated_at : Nat
  is_active : Bool
  last_error : Option String
deriving DecidableEq, Repr

/-- Row of the `syncs` table, restricted to the columns the embedded handlers
touch (src/models/sync.py lines 34-81). -/
structure SyncRow where
  id : Nat
  connection_id : Nat
  user_id : Nat
  status : SyncStatus
  sync_type : SyncType
  time_start : Option Nat
  time_end : Option Nat
  messages_synced : Nat
  messages_new : Nat
  messages_updated : Nat
  last_history_id : Option String
  error_message : Option String
  retry_count : Nat
  progress_percentage : Option Nat
  current_operation : Option String
deriving DecidableEq, Repr

/-- Row of the `messages` table (src/models/message.py lines 16-55), carrying
the unique key `(user_id, external_id)` and the synced payload columns.  The
surrogate primary key plays no part in any claim and is omitted. -/
structure MessageRow where
  external_id : String
  user_id : Nat
  thread_id : Option String
  label_ids : Option (List String)
  snippet : Option String
  history_id : Option Nat
  internal_date : Option Nat
  size_estimate : Option Nat
  from_address : Option String
  to_address : Option String
  cc_address : Option String
  subject : Option String
  body : Option String
  created_at : Nat
  updated_at : Nat
deriving DecidableEq, Repr

/-- A parsed remote message as produced by `gmail_sync_messages`
(src/services/sync/gmail.py lines 281-295).  Gmail responses always carry a
message id, so `id` is a plain string; `historyId` and `internalDate` arrive
as numeric strings and are embedded as the numbers the worker parses them
into. -/
structure ParsedMsg where
  id : String
  threadId : Option String
  labelIds : Option (List String)
  snippet : Option String
  historyId : Option Nat
  internalDate : Option Nat
  sizeEstimate : Option Nat
  from_address : Option String
  to_address : Option String
  cc_address : Option String
  subject : Option String
  body : Option String
deriving DecidableEq, Repr

namespace SyncWorker

/-- Key test against the `uq_user_external_message` unique constraint
(src/models/message.py lines 18-20). -/
def msgKeyIs (uid : Nat) (eid : String) (r : MessageRow) : Bool :=
  r.user_id == uid && r.external_id == eid

/-- Keys of a message table, for stating the uniqueness invariant. -/
def msgKeys (table : List MessageRow) : List (Nat × String) :=
  table.map (fun r => (r.user_id, r.external_id))

/-- Embedding of one `INSERT ... ON CONFLICT (user_id, external_id) DO UPDATE
... RETURNING xmax = 0 AS inserted` statement (src/services/sync/worker.py
lines 67-104).  In the serialized database model the database-level inserted
flag is true exactly when no row with the key existed when the statement ran;
on conflict the statement overwrites the mutable columns and bumps
`updated_at`. -/
def upsertMessage (now uid : Nat) (table : List MessageRow) (m : ParsedMsg) :
    List MessageRow × Bool :=
  if table.any (msgKeyIs uid m.id) then
    (table.map (fun r =>
      if msgKeyIs uid m.id r then
        { r with
          thread_id := m.threadId, label_ids := m.labelIds,
          snippet := m.snippet, history_id := m.historyId,
          internal_date := m.internalDate, size_estimate := m.sizeEstimate,
          from_address := m.from_address, to_address := m.to_address,
          cc_address := m.cc_address, subject := m.subject,
          body := m.body, updated_at := now }
      else r), false)
  else
    (table ++ [{
      external_id := m.id, user_id := uid, thread_id := m.threadId,
      label_ids := m.labelIds, snippet := m.snippet,
      history_id := m.historyId, internal_date := m.internalDate,
      size_estimate := m.sizeEstimate, from_address := m.from_address,
      to_address := m.to_address, cc_address := m.cc_address,
      subject := m.subject, body := m.body,
      created_at := now, updated_at := now }], true)

/-- Result of the worker message loop: final table and the insert/update
counters derived from the database-reported flags. -/
structure UpsertRun where
  table : List MessageRow
  newCount : Nat
  updatedCount : Nat
deriving DecidableEq, Repr

/-- Embedding of the worker message loop (src/services/sync/worker.py lines
66-111): upsert each parsed message in order, incrementing `messages_new`
when the database reports an insert and `messages_updated` otherwise. -/
def runUpserts (now uid : Nat) (table : List MessageRow) :
    List ParsedMsg → UpsertRun
  | [] => { table := table, newCount := 0, updatedCount := 0 }
  | m :: rest =>
      let step := upsertMessage now uid table m
      let r := runUpserts now uid step.1 rest
      if step.2 then { r with newCount := r.newCount + 1 }
      else { r with updatedCount := r.updatedCount + 1 }

theorem msgKeys_upsertMessage (now uid : Nat) (table : List MessageRow)
    (m : ParsedMsg) :
    msgKeys (upsertMessage now uid table m).1
      = if table.any (msgKeyIs uid m.id) then msgKeys table
        else msgKeys table ++ [(uid, m.id)] := by
  by_cases h : table.any (msgKeyIs uid m.id)
  · simp only [upsertMessage, h, if_true, msgKeys, List.map_map]
    apply List.map_congr_left
    intro r _
    by_cases hr : msgKeyIs uid m.id r
    · simp only [Function.comp_apply, hr, if_true]
    · simp [Function.comp_apply, hr]
  · simp [upsertMessage, h, msgKeys]

theorem mem_msgKeys_upsertMessage (now uid : Nat) (table : List MessageRow)
    (m : ParsedMsg) :
    (uid, m.id) ∈ msgKeys (upsertMessage now uid table m).1 := by
  rw [msgKeys_upsertMessage]
  by_cases h : table.any (msgKeyIs uid m.id)
  · simp only [h, if_true]
    rcases List.any_eq_true.mp h with ⟨r, hr, hkey⟩
    simp only [msgKeyIs, Bool.and_eq_true, beq_iff_eq] at hkey
    simp only [msgKeys, List.mem_map]
    exact ⟨r, hr, by rw [hkey.1, hkey.2]⟩
  · simp [h]

theorem mem_msgKeys_upsertMessage_mono (now uid : Nat) (table : List MessageRow)
    (m : ParsedMsg) (k : Nat × String) (hk : k ∈ msgKeys table) :
    k ∈ msgKeys (upsertMessage now uid table m).1 := by
  rw [msgKeys_upsertMessage]
  by_cases h : table.any (msgKeyIs uid m.id) <;> simp [h, hk]

theorem msgKeys_nodup_upsertMessage (now uid : Nat) (table : List MessageRow)
    (m : ParsedMsg) (hnd : (msgKeys table).Nodup) :
    (msgKeys (upsertMessage now uid table m).1).Nodup := by
  rw [msgKeys_upsertMessage]
  by_cases h : table.any (msgKeyIs uid m.id)
  · simpa [h] using hnd
  · simp only [h, Bool.false_eq_true, if_false]
    rw [List.nodup_append]
    refine ⟨hnd, List.nodup_singleton _, ?_⟩
    intro k hk
    simp only [List.mem_singleton]
    intro hkeq
    apply h
    subst hkeq
    simp only [msgKeys, List.mem_map] at hk
    rcases hk with ⟨r, hr, hkey⟩
    refine List.any_eq_true.mpr ⟨r, hr, ?_⟩
    simp only [msgKeyIs, Bool.and_eq_true, beq_iff_eq]
    exact ⟨congrArg Prod.fst hkey, congrArg Prod.snd hkey⟩

theorem any_msgKeyIs (uid : Nat) (eid : String) (table : List MessageRow) :
    table.any (msgKeyIs uid eid) = true ↔ (uid, eid) ∈ msgKeys table := by
  rw [List.any_eq_true]
  constructor
  · rintro ⟨r, hr, hkey⟩
    simp only [msgKeyIs, Bool.and_eq_true, beq_iff_eq] at hkey
    exact List.mem_map.mpr ⟨r, hr, by rw [hkey.1, hkey.2]⟩
  · intro hk
    rcases List.mem_map.mp hk with ⟨r, hr, hkey⟩
    refine ⟨r, hr, ?_⟩
    simp only [msgKeyIs, Bool.and_eq_true, beq_iff_eq]
    exact ⟨congrArg Prod.fst hkey, congrArg Prod.snd hkey⟩

theorem runUpserts_nodup (now uid : Nat) (msgs : List ParsedMsg)
    (table : List MessageRow) (hnd : (msgKeys table).Nodup) :
    (msgKeys (runUpserts now uid table msgs).table).Nodup := by
  induction msgs generalizing table with
  | nil => simpa [runUpserts] using hnd
  | cons m rest ih =>
      simp only [runUpserts]
      have h1 := msgKeys_nodup_upsertMessage now uid table m hnd
      by_cases hins : (upsertMessage now uid table m).2 <;>
        simp [hins, ih _ h1]

theorem runUpserts_key_mono (now uid : Nat) (msgs : List ParsedMsg)
    (table : List MessageRow) (k : Nat × String) (hk : k ∈ msgKeys table) :
    k ∈ msgKeys (runUpserts now uid table msgs).table := by
  induction msgs generalizing table with
  | nil => simpa [runUpserts] using hk
  | cons m rest ih =>
      simp only [runUpserts]
      have h1 := mem_msgKeys_upsertMessage_mono now uid table m k hk
      by_cases hins : (upsertMessage now uid table m).2 <;>
        simp [hins, ih _ h1]

theorem runUpserts_mem_key (now uid : Nat) (msgs : List ParsedMsg)
    (table : List MessageRow) (m : ParsedMsg) (hm : m ∈ msgs) :
    (uid, m.id) ∈ msgKeys (runUpserts now uid table msgs).table := by
  induction msgs generalizing table with
  | nil => cases hm
  | cons m0 rest ih =>
      simp only [runUpserts]
      rcases List.mem_cons.mp hm with heq | hmem
      · subst heq
        have h1 := mem_msgKeys_upsertMessage now uid table m
        have h2 := runUpserts_key_mono now uid rest
          (upsertMessage now uid table m).1 (uid, m.id) h1
        by_cases hins : (upsertMessage now uid table m).2 <;> simp [hins, h2]
      · have h2 := ih (upsertMessage now uid table m0).1 hmem
        by_cases hins : (upsertMessage now uid table m0).2 <;> simp [hins, h2]

theorem runUpserts_counter_sum (now uid : Nat) (msgs : List ParsedMsg)
    (table : List MessageRow) :
    (runUpserts now uid table msgs).newCount
      + (runUpserts now uid table msgs).updatedCount = msgs.length := by
  induction msgs generalizing table with
  | nil => simp [runUpserts]
  | cons m rest ih =>
      simp only [runUpserts, List.length_cons]
      have hsum := ih (upsertMessage now uid table m).1
      by_cases hins : (upsertMessage now uid table m).2 <;>
        · simp [hins]
          omega

theorem runUpserts_all_updates (now uid : Nat) (msgs : List ParsedMsg)
    (table : List MessageRow)
    (hall : ∀ m ∈ msgs, (uid, m.id) ∈ msgKeys table) :
    (runUpserts now uid table msgs).newCount = 0
    ∧ (runUpserts now uid table msgs).updatedCount = msgs.length := by
  induction msgs generalizing table with
  | nil => simp [runUpserts]
  | cons m rest ih =>
      simp only [runUpserts]
      have hany : table.any (msgKeyIs uid m.id) = true :=
        (any_msgKeyIs uid m.id table).mpr (hall m (List.mem_cons_self m rest))
      have hins : (upsertMessage now uid table m).2 = false := by
        simp [upsertMessage, hany]
      have hrest : ∀ m0 ∈ rest, (uid, m0.id) ∈ msgKeys (upsertMessage now uid table m).1 := by
        intro m0 hm0
        exact mem_msgKeys_upsertMessage_mono now uid table m _
          (hall m0 (List.mem_cons_of_mem m hm0))
      have := ih (upsertMessage now uid table m).1 hrest
      simp [hins, this.1, this.2]

/-- C3: for every user and fixed list of remote messages, running the sync
upsert loop twice over the same messages leaves the `(user_id, external_id)`
keys duplicate-free; on the second run every message takes the update branch,
so the second run reports `messages_new = 0` and `messages_updated` equal to
the total; and the database-reported inserted flags partition the processed
messages between the two counters. -/
theorem message_upsert_idempotent (now1 now2 uid : Nat) (table : List MessageRow)
    (msgs : List ParsedMsg) (hnd : (msgKeys table).Nodup) :
    (msgKeys (runUpserts now2 uid (runUpserts now1 uid table msgs).table msgs).table).Nodup
    ∧ (runUpserts now2 uid (runUpserts now1 uid table msgs).table msgs).newCount = 0
    ∧ (runUpserts now2 uid (runUpserts now1 uid table msgs).table msgs).updatedCount
        = msgs.length
    ∧ (runUpserts now1 uid table msgs).newCount
        + (runUpserts now1 uid table msgs).updatedCount = msgs.length := by
  have hnd1 := runUpserts_nodup now1 uid msgs table hnd
  have hall : ∀ m ∈ msgs, (uid, m.id) ∈ msgKeys (runUpserts now1 uid table msgs).table :=
    fun m hm => runUpserts_mem_key now1 uid msgs table m hm
  have hsecond := runUpserts_all_updates now2 uid msgs
    (runUpserts now1 uid table msgs).table hall
  exact ⟨runUpserts_nodup now2 uid msgs _ hnd1, hsecond.1, hsecond.2,
    runUpserts_counter_sum now1 uid msgs table⟩

/-- Sample remote message used by concrete witnesses. -/
def sampleParsedMsg : ParsedMsg :=
  ParsedMsg.mk "x1" (some "t1") (some ["INBOX"]) (some "hey") (some 12)
    (some 1700) (some 840) (some "a@b") (some "c@d") none (some "hi") (some "body")

/-- Witness instantiating `message_upsert_idempotent` on an empty table and
one concrete remote message. -/
theorem message_upsert_idempotent_witness :
    (msgKeys ([] : List MessageRow)).Nodup
    ∧ ((msgKeys (runUpserts 1 7 (runUpserts 0 7 [] [sampleParsedMsg]).table
          [sampleParsedMsg]).table).Nodup
      ∧ (runUpserts 1 7 (runUpserts 0 7 [] [sampleParsedMsg]).table
          [sampleParsedMsg]).newCount = 0
      ∧ (runUpserts 1 7 (runUpserts 0 7 [] [sampleParsedMsg]).table
          [sampleParsedMsg]).updatedCount = [sampleParsedMsg].length
      ∧ (runUpserts 0 7 [] [sampleParsedMsg]).newCount
          + (runUpserts 0 7 [] [sampleParsedMsg]).updatedCount
          = [sampleParsedMsg].length) :=
  ⟨by simp [msgKeys],
    message_upsert_idempotent 0 1 7 [] [sampleParsedMsg] (by simp [msgKeys])⟩

/-- Lookup of a `Sync` row by primary key (the `select(Sync).where(Sync.id ==
sync_id)` / `scalar_one()` at src/services/sync/worker.py lines 34-37). -/
def findSync (syncs : List SyncRow) (sid : Nat) : Option SyncRow :=
  syncs.find? (fun s => s.id == sid)

/-- In-place mutation of the session-loaded `Sync` row, as seen by the
database after commit. -/
def updateSyncRow (syncs : List SyncRow) (sid : Nat) (f : SyncRow → SyncRow) :
    List SyncRow :=
  syncs.map (fun s => if s.id == sid then f s else s)

/-- Lookup of a `Connection` row by primary key (`db.get(Connection,
conn.id)`, src/services/sync/worker.py line 126). -/
def findConn (conns : List ConnectionRow) (cid : Nat) : Option ConnectionRow :=
  conns.find? (fun c => c.id == cid)

/-- In-place mutation of a `Connection` row. -/
def updateConnRow (conns : List ConnectionRow) (cid : Nat)
    (f : ConnectionRow → ConnectionRow) : List ConnectionRow :=
  conns.map (fun c => if c.id == cid then f c else c)

/-- Successful outcome of `connection_to_creds` plus `gmail_sync_messages` as
consumed by the worker: the parsed messages and the returned cursor.  In the
source the `messages_synced` entry of the result dictionary is always the
length of `messages` (src/services/sync/gmail.py lines 300-306). -/
structure FetchOk where
  messages : List ParsedMsg
  last_history_id : Option String
deriving DecidableEq, Repr

/-- Environment of one worker run: the clock, the outcome of the credential
materialization and remote fetch (an exception message or a result), and an
injected exception for the message loop — `some (k, msg)` makes iteration `k`
raise `msg` (covering database errors and the like), `none` lets the loop
finish. -/
structure WorkerEnv where
  now : Nat
  fetch : Except String FetchOk
  loopFail : Option (Nat × String)
deriving Repr

/-- The messages delivered by the fetch, if it succeeded. -/
def fetchMessages (env : WorkerEnv) : List ParsedMsg :=
  match env.fetch with
  | .ok r => r.messages
  | .error _ => []

/-- Mutations applied at the top of the try block (src/services/sync/worker.py
lines 41-45): mark the job running, stamp `time_start`, reset progress. -/
def runningRow (now : Nat) (j : SyncRow) : SyncRow :=
  { j with status := .running, time_start := some now,
           progress_percentage := some 0,
           current_operation := some "Starting sync" }

/-- Mutations applied by the `except` block of `process_sync_job`
(src/services/sync/worker.py lines 138-145) on top of whatever the try block
had already written to the session row. -/
def failedRow (now : Nat) (msg : String) (j : SyncRow) : SyncRow :=
  { j with status := .failed, time_end := some now,
           error_message := some msg, retry_count := j.retry_count + 1,
           current_operation := some "Failed" }

/-- Progress string written once per processed message. -/
def ingestNote (processed total : Nat) : String :=
  "Ingested " ++ toString processed ++ "/" ++ toString total ++ " messages"

/-- Final database state of one `process_sync_job` run, together with the
exception message caught by its `except` block, if any. -/
structure WorkerResult where
  syncs : List SyncRow
  messages : List MessageRow
  connections : List ConnectionRow
  caught : Option String
deriving Repr

/-- Embedding of `process_sync_job` (src/services/sync/worker.py lines
26-145).  The job row is loaded by id; the try block marks it running, runs
the fetch, upserts each message (committing batches as it goes; the commit in
the `except` block makes every upsert executed before an exception durable),
assigns the counters and cursor, re-loads the connection and completes — and
any exception after the running transition lands in the `except` block, which
stamps the failure onto the job row.  Float truncation in the mid-loop
progress percentage is modelled with natural division. -/
def process_sync_job (env : WorkerEnv) (sync_id : Nat) (conn : ConnectionRow)
    (syncs : List SyncRow) (messages : List MessageRow)
    (connections : List ConnectionRow) : WorkerResult :=
  match findSync syncs sync_id with
  | none =>
      -- `scalar_one()` raises before the try block: nothing is mutated.
      ⟨syncs, messages, connections, some "No row was found when one was required"⟩
  | some job =>
      let job1 : SyncRow := runningRow env.now job
      match env.fetch with
      | .error e =>
          ⟨updateSyncRow syncs sync_id (fun _ => failedRow env.now e job1),
           messages, connections, some e⟩
      | .ok r =>
          let total := r.messages.length
          let finishLoop : WorkerResult :=
            let run := runUpserts env.now job.user_id messages r.messages
            let job2 : SyncRow :=
              { job1 with
                progress_percentage := some (if total = 0 then 0 else 100),
                current_operation := if total = 0 then job1.current_operation
                  else some (ingestNote total total),
                messages_synced := total, messages_new := run.newCount,
                messages_updated := run.updatedCount,
                last_history_id := r.last_history_id }
            match findConn connections conn.id with
            | none =>
                ⟨updateSyncRow syncs sync_id
                    (fun _ => failedRow env.now
                      "Connection no longer exists for this sync job" job2),
                 run.table, connections,
                 some "Connection no longer exists for this sync job"⟩
            | some _ =>
                let job3 : SyncRow :=
                  { job2 with progress_percentage := some 100,
                              current_operation := some "Completed",
                              status := .completed, time_end := some env.now }
                ⟨updateSyncRow syncs sync_id (fun _ => job3), run.table,
                 updateConnRow connections conn.id
                   (fun c => { c with last_history_id := r.last_history_id }),
                 none⟩
          match env.loopFail with
          | some (k, emsg) =>
              if k < total then
                let run := runUpserts env.now job.user_id messages (r.messages.take k)
                let job2 : SyncRow :=
                  { job1 with
                    progress_percentage := some ((k * 100) / total),
                    current_operation := if k = 0 then job1.current_operation
                      else some (ingestNote k total) }
                ⟨updateSyncRow syncs sync_id (fun _ => failedRow env.now emsg job2),
                 run.table, connections, some emsg⟩
              else finishLoop
          | none => finishLoop

theorem findSync_updateSyncRow (syncs : List SyncRow) (sid : Nat)
    (x j : SyncRow) (hx : x.id = j.id) (h : findSync syncs sid = some j) :
    findSync (updateSyncRow syncs sid (fun _ => x)) sid = some x := by
  induction syncs with
  | nil => simp [findSync, List.find?] at h
  | cons s rest ih =>
      by_cases hs : (s.id == sid) = true
      · simp only [findSync, List.find?, hs] at h
        simp only [Option.some.injEq] at h
        simp only [updateSyncRow, List.map_cons, hs, if_true, findSync, List.find?]
        have hxid : (x.id == sid) = true := by
          rw [hx, ← h]
          exact hs
        simp only [hxid]
      · have hs2 : (s.id == sid) = false := by simpa using hs
        simp only [findSync, List.find?, hs2] at h
        simp only [updateSyncRow, List.map_cons, hs2, Bool.false_eq_true, if_false,
          findSync, List.find?]
        exact ih h

/-- C5: for every sync job claimed by the worker (its row exists), when
`process_sync_job` returns the job is never left `running`: on any exception
after the job enters running, the job ends `failed` with `error_message` set
to the exception message, `retry_count` incremented by one and `time_end`
stamped; with no exception it ends `completed`; and the final message table is
always the initial table with the upserts of a prefix of the fetched messages
applied — work committed before a failure stays persisted, never rolled
back. -/
theorem worker_never_leaves_running (env : WorkerEnv) (sync_id : Nat)
    (conn : ConnectionRow) (syncs : List SyncRow) (messages : List MessageRow)
    (connections : List ConnectionRow) (job : SyncRow)
    (hjob : findSync syncs sync_id = some job) :
    ∃ j2,
      findSync (process_sync_job env sync_id conn syncs messages connections).syncs
          sync_id = some j2
      ∧ j2.status ≠ SyncStatus.running
      ∧ (∀ m, (process_sync_job env sync_id conn syncs messages connections).caught
            = some m →
          j2.status = SyncStatus.failed ∧ j2.error_message = some m
          ∧ j2.retry_count = job.retry_count + 1 ∧ j2.time_end = some env.now)
      ∧ ((process_sync_job env sync_id conn syncs messages connections).caught
            = none → j2.status = SyncStatus.completed)
      ∧ (∃ k, (process_sync_job env sync_id conn syncs messages connections).messages
          = (runUpserts env.now job.user_id messages
              ((fetchMessages env).take k)).table) := by
  simp only [process_sync_job, hjob]
  cases henv : env.fetch with
  | error e =>
      dsimp only
      refine ⟨_, findSync_updateSyncRow syncs sync_id _ job rfl hjob, ?_, ?_, ?_, ?_⟩
      · simp [failedRow]
      · intro m hm
        obtain rfl : e = m := by simpa using hm
        exact ⟨rfl, rfl, rfl, rfl⟩
      · intro h
        exact Option.noConfusion h
      · exact ⟨0, by simp [fetchMessages, henv, runUpserts]⟩
  | ok r =>
      dsimp only
      cases hloop : env.loopFail with
      | some kf =>
          obtain ⟨k, emsg⟩ := kf
          dsimp only
          by_cases hk : k < r.messages.length
          · rw [if_pos hk]
            refine ⟨_, findSync_updateSyncRow syncs sync_id _ job rfl hjob, ?_, ?_, ?_, ?_⟩
            · simp [failedRow]
            · intro m hm
              obtain rfl : emsg = m := by simpa using hm
              exact ⟨rfl, rfl, rfl, rfl⟩
            · intro h
              exact Option.noConfusion h
            · exact ⟨k, by simp [fetchMessages, henv]⟩
          · rw [if_neg hk]
            cases hconn : findConn connections conn.id with
            | none =>
                dsimp only
                refine ⟨_, findSync_updateSyncRow syncs sync_id _ job rfl hjob, ?_, ?_, ?_, ?_⟩
                · simp [failedRow]
                · intro m hm
                  obtain rfl : "Connection no longer exists for this sync job" = m := by
                    simpa using hm
                  exact ⟨rfl, rfl, rfl, rfl⟩
                · intro h
                  exact Option.noConfusion h
                · exact ⟨r.messages.length, by simp [fetchMessages, henv]⟩
            | some c0 =>
                dsimp only
                refine ⟨_, findSync_updateSyncRow syncs sync_id _ job rfl hjob, ?_, ?_, ?_, ?_⟩
                · simp
                · intro m hm
                  exact Option.noConfusion hm
                · intro _
                  rfl
                · exact ⟨r.messages.length, by simp [fetchMessages, henv]⟩
      | none =>
          dsimp only
          cases hconn : findConn connections conn.id with
          | none =>
              dsimp only
              refine ⟨_, findSync_updateSyncRow syncs sync_id _ job rfl hjob, ?_, ?_, ?_, ?_⟩
              · simp [failedRow]
              · intro m hm
                obtain rfl : "Connection no longer exists for this sync job" = m := by
                  simpa using hm
                exact ⟨rfl, rfl, rfl, rfl⟩
              · intro h
                exact Option.noConfusion h
              · exact ⟨r.messages.length, by simp [fetchMessages, henv]⟩
          | some c0 =>
              dsimp only
              refine ⟨_, findSync_updateSyncRow syncs sync_id _ job rfl hjob, ?_, ?_, ?_, ?_⟩
              · simp
              · intro m hm
                exact Option.noConfusion hm
              · intro _
                rfl
              · exact ⟨r.messages.length, by simp [fetchMessages, henv]⟩

/-- Sample active connection used by concrete witnesses. -/
def sampleConn : ConnectionRow :=
  ConnectionRow.mk 11 7 .gmail .active (some "a@b") (some "enc1") (some "enc2")
    (some ["s1"]) none (some "H1") 0 0 true none

/-- Sample pending sync job used by concrete witnesses. -/
def sampleSyncRow : SyncRow :=
  SyncRow.mk 3 11 7 .pending .incremental none none 0 0 0 none none 0 none none

/-- Sample worker environment: a successful fetch of one message, no injected
loop exception. -/
def sampleWorkerEnv : WorkerEnv :=
  WorkerEnv.mk 5 (.ok (FetchOk.mk [sampleParsedMsg] (some "H9"))) none

/-- Witness instantiating `worker_never_leaves_running` on one concrete job,
connection and fetched message. -/
theorem worker_never_leaves_running_witness :
    findSync [sampleSyncRow] 3 = some sampleSyncRow
    ∧ (∃ j2,
        findSync (process_sync_job sampleWorkerEnv 3 sampleConn [sampleSyncRow]
            [] [sampleConn]).syncs 3 = some j2
        ∧ j2.status ≠ SyncStatus.running
        ∧ (∀ m, (process_sync_job sampleWorkerEnv 3 sampleConn [sampleSyncRow]
              [] [sampleConn]).caught = some m →
            j2.status = SyncStatus.failed ∧ j2.error_message = some m
            ∧ j2.retry_count = sampleSyncRow.retry_count + 1
            ∧ j2.time_end = some sampleWorkerEnv.now)
        ∧ ((process_sync_job sampleWorkerEnv 3 sampleConn [sampleSyncRow]
              [] [sampleConn]).caught = none → j2.status = SyncStatus.completed)
        ∧ (∃ k, (process_sync_job sampleWorkerEnv 3 sampleConn [sampleSyncRow]
              [] [sampleConn]).messages
            = (runUpserts sampleWorkerEnv.now sampleSyncRow.user_id []
                ((fetchMessages sampleWorkerEnv).take k)).table)) :=
  ⟨rfl, worker_never_leaves_running sampleWorkerEnv 3 sampleConn [sampleSyncRow]
    [] [sampleConn] sampleSyncRow rfl⟩

end SyncWorker

/-- Structured HTTP error of the web framework (`HTTPException`): a status
code and a human-readable detail string. -/
structure HTTPError where
  status_code : Nat
  detail : String
deriving DecidableEq, Repr

namespace ConnectionsRouter

/-- Request body of `POST /connections` (`ConnectionCreate`,
src/models/connection.py lines 104-130).  `provider` arrives as a raw string
validated against the enum; `status` is a required field of the schema. -/
structure ConnectionCreate where
  user_id : Nat
  provider : String
  provider_account_id : Option String
  status : ConnectionStatus
  scopes : Option (List String)
  access_token : Option String
  refresh_token : Option String
  access_token_expiry : Option Nat
  is_active : Option Bool
deriving DecidableEq, Repr

/-- Embedding of `OAuthProvider(conn_req.provider)` (src/routers/
connections.py lines 46-52): parse the raw provider string. -/
def parseProvider : String → Option OAuthProvider
  | "gmail" => some .gmail
  | "google" => some .google
  | "slack" => some .slack
  | "outlook" => some .outlook
  | _ => none

/-- Python `a or b` on an optional list: `a` is kept only when present and
non-empty (an empty list is falsy). -/
def pyOrScopes (a b : Option (List String)) : Option (List String) :=
  match a with
  | some l => if l.isEmpty then b else some l
  | none => b

/-- Python `a or b` on an optional string: `a` is kept only when present and
non-empty (an empty string is falsy). -/
def pyOrStr (a b : Option String) : Option String :=
  match a with
  | some s => if s = "" then b else some s
  | none => b

/-- Python `a or b` on an optional datetime: a datetime object is always
truthy, so `a` is kept whenever present. -/
def pyOrTime (a b : Option Nat) : Option Nat :=
  match a with
  | some x => some x
  | none => b

/-- Row filter of the existing-connection lookup (src/routers/connections.py
lines 55-59).  SQLAlchemy compiles a comparison against a Python `None` into
`IS NULL`, so the match is plain option equality on `provider_account_id`. -/
def connMatches (uid : Nat) (prov : OAuthProvider) (paid : Option String)
    (c : ConnectionRow) : Bool :=
  c.user_id == uid && c.provider == prov && c.provider_account_id == paid

/-- Update branch of `create_connection` (src/routers/connections.py lines
63-75): rotate scopes, tokens and expiry with Python falsy-or semantics, set
`status` (a required field, so `is not None` always holds) and `is_active`
when provided.  `updated_at` is bumped by the ORM `onupdate` hook at commit
time, not by the handler, and is left out of the handler embedding. -/
def applyConnUpdate (req : ConnectionCreate) (c : ConnectionRow) : ConnectionRow :=
  let c1 := { c with
    scopes := pyOrScopes req.scopes c.scopes,
    access_token := pyOrStr req.access_token c.access_token,
    refresh_token := pyOrStr req.refresh_token c.refresh_token,
    access_token_expiry := pyOrTime req.access_token_expiry c.access_token_expiry,
    status := req.status }
  match req.is_active with
  | some b => { c1 with is_active := b }
  | none => c1

/-- Insert branch of `create_connection` (src/routers/connections.py lines
77-90).  `conn_req.status or PENDING` always yields `conn_req.status` because
enum members are truthy; `is_active` defaults to true when absent. -/
def newConnRow (freshId now : Nat) (req : ConnectionCreate)
    (prov : OAuthProvider) : ConnectionRow :=
  { id := freshId, user_id := req.user_id, provider := prov,
    status := req.status, provider_account_id := req.provider_account_id,
    scopes := req.scopes, access_token := req.access_token,
    refresh_token := req.refresh_token,
    access_token_expiry := req.access_token_expiry,
    last_history_id := none, created_at := now, updated_at := now,
    is_active := req.is_active.getD true, last_error := none }

/-- Embedding of `create_connection` (src/routers/connections.py lines
39-95): validate the provider, look up an existing row by `(user_id,
provider, provider_account_id)` (`scalar_one_or_none` raises when several
rows match), then update in place or insert.  Returns the final table and the
row returned to the caller. -/
def create_connection (now freshId : Nat) (db : List ConnectionRow)
    (req : ConnectionCreate) :
    Except HTTPError (List ConnectionRow × ConnectionRow) :=
  match parseProvider req.provider with
  | none => .error ⟨400, "Unsupported provider: " ++ req.provider⟩
  | some prov =>
      match db.filter (connMatches req.user_id prov req.provider_account_id) with
      | [] =>
          let row := newConnRow freshId now req prov
          .ok (db ++ [row], row)
      | [c] =>
          let row := applyConnUpdate req c
          .ok (db.map (fun c0 =>
            if connMatches req.user_id prov req.provider_account_id c0 then row
            else c0), row)
      | _ :: _ :: _ =>
          .error ⟨500, "Multiple rows were found when one or none was required"⟩

theorem applyConnUpdate_key (req : ConnectionCreate) (c : ConnectionRow) :
    (applyConnUpdate req c).user_id = c.user_id
    ∧ (applyConnUpdate req c).provider = c.provider
    ∧ (applyConnUpdate req c).provider_account_id = c.provider_account_id := by
  simp only [applyConnUpdate]
  cases req.is_active <;> simp

theorem connMatches_applyConnUpdate (uid : Nat) (prov : OAuthProvider)
    (paid : Option String) (req : ConnectionCreate) (c : ConnectionRow) :
    connMatches uid prov paid (applyConnUpdate req c) = connMatches uid prov paid c := by
  obtain ⟨h1, h2, h3⟩ := applyConnUpdate_key req c
  simp [connMatches, h1, h2, h3]

theorem newConnRow_matches (freshId now : Nat) (req : ConnectionCreate)
    (prov : OAuthProvider) :
    connMatches req.user_id prov req.provider_account_id
      (newConnRow freshId now req prov) = true := by
  simp [connMatches, newConnRow]

theorem filter_map_update {α : Type} (p : α → Bool) (row : α)
    (hrow : p row = true) (l : List α) (c : α) (hl : l.filter p = [c]) :
    (l.map (fun x => if p x then row else x)).filter p = [row] := by
  induction l with
  | nil => simp at hl
  | cons x rest ih =>
      by_cases hp : p x = true
      · simp only [List.filter_cons, hp, if_true] at hl
        have hrest : rest.filter p = [] := (List.cons_eq_cons.mp hl).2
        have hall : ∀ y ∈ rest, ¬ p y = true := List.filter_eq_nil_iff.mp hrest
        have hmap : (rest.map (fun x => if p x then row else x)).filter p = [] := by
          rw [List.filter_eq_nil_iff]
          intro y hy
          rcases List.mem_map.mp hy with ⟨y0, hy0, hfy⟩
          have hy0f : p y0 = false := Bool.eq_false_iff.mpr (hall y0 hy0)
          rw [← hfy]
          simp [hy0f]
        simp [List.map_cons, hp, List.filter_cons, hrow, hmap]
      · have hp2 : p x = false := Bool.eq_false_iff.mpr hp
        simp only [List.filter_cons, hp2, Bool.false_eq_true, if_false] at hl
        simp only [List.map_cons, hp2, Bool.false_eq_true, if_false,
          List.filter_cons]
        exact ih hl

/-- C10: in the update branch of `create_connection` (an existing row
matched), provided-but-falsy values are silently ignored — an empty scopes
list, an empty-string access or refresh token, and an absent
`access_token_expiry` each leave the stored field unchanged — and every
Connection field other than `scopes`, `access_token`, `refresh_token`,
`access_token_expiry`, `status` and `is_active` is left unchanged by the
branch. -/
theorem create_connection_update_frame (now freshId : Nat)
    (db : List ConnectionRow) (req : ConnectionCreate) (prov : OAuthProvider)
    (c : ConnectionRow)
    (hprov : parseProvider req.provider = some prov)
    (hmatch : db.filter (connMatches req.user_id prov req.provider_account_id)
      = [c]) :
    (∃ db2, create_connection now freshId db req = .ok (db2, applyConnUpdate req c))
    ∧ (req.scopes = none ∨ req.scopes = some [] →
        (applyConnUpdate req c).scopes = c.scopes)
    ∧ (req.access_token = none ∨ req.access_token = some "" →
        (applyConnUpdate req c).access_token = c.access_token)
    ∧ (req.refresh_token = none ∨ req.refresh_token = some "" →
        (applyConnUpdate req c).refresh_token = c.refresh_token)
    ∧ (req.access_token_expiry = none →
        (applyConnUpdate req c).access_token_expiry = c.access_token_expiry)
    ∧ (applyConnUpdate req c).id = c.id
    ∧ (applyConnUpdate req c).user_id = c.user_id
    ∧ (applyConnUpdate req c).provider = c.provider
    ∧ (applyConnUpdate req c).provider_account_id = c.provider_account_id
    ∧ (applyConnUpdate req c).last_history_id = c.last_history_id
    ∧ (applyConnUpdate req c).created_at = c.created_at
    ∧ (applyConnUpdate req c).updated_at = c.updated_at
    ∧ (applyConnUpdate req c).last_error = c.last_error := by
  constructor
  · exact ⟨db.map (fun c0 =>
        if connMatches req.user_id prov req.provider_account_id c0 then
          applyConnUpdate req c
        else c0),
      by simp [create_connection, hprov, hmatch]⟩
  simp only [applyConnUpdate]
  cases req.is_active <;>
  · refine ⟨?_, ?_, ?_, ?_, rfl, rfl, rfl, rfl, rfl, rfl, rfl, rfl⟩
    · rintro (h | h) <;> simp [pyOrScopes, h]
    · rintro (h | h) <;> simp [pyOrStr, h]
    · rintro (h | h) <;> simp [pyOrStr, h]
    · intro h
      simp [pyOrTime, h]

/-- Witness instantiating `create_connection_update_frame` on a one-row table
and a request carrying an empty scopes list, empty tokens and no expiry. -/
theorem create_connection_update_frame_witness :
    (parseProvider "gmail" = some OAuthProvider.gmail
      ∧ [SyncWorker.sampleConn].filter
          (connMatches 7 OAuthProvider.gmail (some "a@b")) = [SyncWorker.sampleConn])
    ∧ (∃ db2, create_connection 9 99 [SyncWorker.sampleConn]
          (ConnectionCreate.mk 7 "gmail" (some "a@b") .active (some []) (some "")
            (some "") none none)
          = .ok (db2, applyConnUpdate
              (ConnectionCreate.mk 7 "gmail" (some "a@b") .active (some []) (some "")
                (some "") none none) SyncWorker.sampleConn))
    ∧ (applyConnUpdate
        (ConnectionCreate.mk 7 "gmail" (some "a@b") .active (some []) (some "")
          (some "") none none) SyncWorker.sampleConn).scopes = SyncWorker.sampleConn.scopes
    ∧ (applyConnUpdate
        (ConnectionCreate.mk 7 "gmail" (some "a@b") .active (some []) (some "")
          (some "") none none) SyncWorker.sampleConn).access_token = SyncWorker.sampleConn.access_token
    ∧ (applyConnUpdate
        (ConnectionCreate.mk 7 "gmail" (some "a@b") .active (some []) (some "")
          (some "") none none) SyncWorker.sampleConn).refresh_token = SyncWorker.sampleConn.refresh_token
    ∧ (applyConnUpdate
        (ConnectionCreate.mk 7 "gmail" (some "a@b") .active (some []) (some "")
          (some "") none none) SyncWorker.sampleConn).updated_at = SyncWorker.sampleConn.updated_at := by
  have hm : [SyncWorker.sampleConn].filter
      (connMatches 7 OAuthProvider.gmail (some "a@b")) = [SyncWorker.sampleConn] := by
    simp [connMatches, SyncWorker.sampleConn]
  have h := create_connection_update_frame 9 99 [SyncWorker.sampleConn]
    (ConnectionCreate.mk 7 "gmail" (some "a@b") .active (some []) (some "")
      (some "") none none) OAuthProvider.gmail SyncWorker.sampleConn rfl hm
  exact ⟨⟨rfl, hm⟩, h.1, h.2.1 (Or.inr rfl), h.2.2.1 (Or.inr rfl),
    h.2.2.2.1 (Or.inr rfl), h.2.2.2.2.2.2.2.2.2.2.2.1⟩

/-- C9: for any two `POST /connections` requests carrying the same
`(user_id, provider, provider_account_id)` against a table holding at most
one row with that key, the first request succeeds, and the second request
finds exactly the row left by the first, updates it in place via the update
branch, and leaves the total row count unchanged. -/
theorem create_connection_upsert_idempotent
    (now1 fid1 now2 fid2 : Nat) (db : List ConnectionRow)
    (req1 req2 : ConnectionCreate) (prov : OAuthProvider)
    (hp1 : parseProvider req1.provider = some prov)
    (hp2 : parseProvider req2.provider = some prov)
    (huid : req2.user_id = req1.user_id)
    (hpaid : req2.provider_account_id = req1.provider_account_id)
    (hatmost : (db.filter
      (connMatches req1.user_id prov req1.provider_account_id)).length ≤ 1) :
    ∃ db1 r1 db2 r2,
      create_connection now1 fid1 db req1 = .ok (db1, r1)
      ∧ create_connection now2 fid2 db1 req2 = .ok (db2, r2)
      ∧ db1.filter (connMatches req2.user_id prov req2.provider_account_id) = [r1]
      ∧ r2 = applyConnUpdate req2 r1
      ∧ db2.length = db1.length := by
  rcases hfilter : db.filter (connMatches req1.user_id prov req1.provider_account_id)
    with _ | ⟨c, crest⟩
  · -- no existing row: first request inserts
    have h1 : create_connection now1 fid1 db req1
        = .ok (db ++ [newConnRow fid1 now1 req1 prov], newConnRow fid1 now1 req1 prov) := by
      simp [create_connection, hp1, hfilter]
    have hkeep : (db ++ [newConnRow fid1 now1 req1 prov]).filter
        (connMatches req2.user_id prov req2.provider_account_id)
        = [newConnRow fid1 now1 req1 prov] := by
      rw [huid, hpaid, List.filter_append, hfilter]
      simp [newConnRow_matches]
    have h2 : create_connection now2 fid2 (db ++ [newConnRow fid1 now1 req1 prov]) req2
        = .ok ((db ++ [newConnRow fid1 now1 req1 prov]).map (fun c0 =>
            if connMatches req2.user_id prov req2.provider_account_id c0 then
              applyConnUpdate req2 (newConnRow fid1 now1 req1 prov)
            else c0),
          applyConnUpdate req2 (newConnRow fid1 now1 req1 prov)) := by
      simp [create_connection, hp2, hkeep]
    exact ⟨_, _, _, _, h1, h2, hkeep, rfl, by simp⟩
  · cases crest with
    | cons c2 crest2 =>
        exfalso
        rw [hfilter] at hatmost
        simp at hatmost
    | nil =>
        -- one existing row: first request already updates it in place
        have hpc : connMatches req1.user_id prov req1.provider_account_id c = true := by
          have hc : c ∈ db.filter (connMatches req1.user_id prov req1.provider_account_id) := by
            rw [hfilter]
            exact List.mem_singleton_self c
          exact (List.mem_filter.mp hc).2
        have h1 : create_connection now1 fid1 db req1
            = .ok (db.map (fun c0 =>
                if connMatches req1.user_id prov req1.provider_account_id c0 then
                  applyConnUpdate req1 c
                else c0), applyConnUpdate req1 c) := by
          simp [create_connection, hp1, hfilter]
        have hrow : connMatches req1.user_id prov req1.provider_account_id
            (applyConnUpdate req1 c) = true := by
          rw [connMatches_applyConnUpdate]
          exact hpc
        have hkeep1 : (db.map (fun c0 =>
            if connMatches req1.user_id prov req1.provider_account_id c0 then
              applyConnUpdate req1 c
            else c0)).filter (connMatches req1.user_id prov req1.provider_account_id)
            = [applyConnUpdate req1 c] :=
          filter_map_update _ _ hrow db c hfilter
        have hkeep : (db.map (fun c0 =>
            if connMatches req1.user_id prov req1.provider_account_id c0 then
              applyConnUpdate req1 c
            else c0)).filter (connMatches req2.user_id prov req2.provider_account_id)
            = [applyConnUpdate req1 c] := by
          rw [huid, hpaid]
          exact hkeep1
        have h2 : create_connection now2 fid2 (db.map (fun c0 =>
            if connMatches req1.user_id prov req1.provider_account_id c0 then
              applyConnUpdate req1 c
            else c0)) req2
            = .ok ((db.map (fun c0 =>
                if connMatches req1.user_id prov req1.provider_account_id c0 then
                  applyConnUpdate req1 c
                else c0)).map (fun c0 =>
                if connMatches req2.user_id prov req2.provider_account_id c0 then
                  applyConnUpdate req2 (applyConnUpdate req1 c)
                else c0),
              applyConnUpdate req2 (applyConnUpdate req1 c)) := by
          simp [create_connection, hp2, hkeep]
        exact ⟨_, _, _, _, h1, h2, hkeep, rfl, by simp⟩

/-- Witness instantiating `create_connection_upsert_idempotent` on an empty
table and two identical gmail requests. -/
theorem create_connection_upsert_idempotent_witness :
    (parseProvider "gmail" = some OAuthProvider.gmail
      ∧ (([] : List ConnectionRow).filter
          (connMatches 7 OAuthProvider.gmail (some "a@b"))).length ≤ 1)
    ∧ (∃ db1 r1 db2 r2,
        create_connection 1 21 []
            (ConnectionCreate.mk 7 "gmail" (some "a@b") .active (some ["s"])
              (some "t1") (some "t2") none none) = .ok (db1, r1)
        ∧ create_connection 2 22 db1
            (ConnectionCreate.mk 7 "gmail" (some "a@b") .active (some ["s"])
              (some "t1") (some "t2") none none) = .ok (db2, r2)
        ∧ db1.filter (connMatches 7 OAuthProvider.gmail (some "a@b")) = [r1]
        ∧ r2 = applyConnUpdate
            (ConnectionCreate.mk 7 "gmail" (some "a@b") .active (some ["s"])
              (some "t1") (some "t2") none none) r1
        ∧ db2.length = db1.length) :=
  ⟨⟨rfl, by simp⟩,
    create_connection_upsert_idempotent 1 21 2 22 []
      (ConnectionCreate.mk 7 "gmail" (some "a@b") .active (some ["s"])
        (some "t1") (some "t2") none none)
      (ConnectionCreate.mk 7 "gmail" (some "a@b") .active (some ["s"])
        (some "t1") (some "t2") none none)
      OAuthProvider.gmail rfl rfl rfl rfl (by simp)⟩

end ConnectionsRouter

namespace SyncsRouter

/-- In-flight syncs of a connection: its `pending` or `running` rows, as
selected by the outer-join condition of `create_sync` (src/routers/syncs.py
lines 190-203) and by the conflict re-query (lines 233-239). -/
def inFlight (syncs : List SyncRow) (cid : Nat) : List SyncRow :=
  syncs.filter (fun s => s.connection_id == cid
    && (s.status == SyncStatus.pending || s.status == SyncStatus.running))

/-- Fresh `Sync` row inserted by `create_sync` (src/routers/syncs.py lines
216-221), with the column defaults of src/models/sync.py. -/
def newSyncRow (freshId cid uid : Nat) (stype : SyncType) : SyncRow :=
  { id := freshId, connection_id := cid, user_id := uid,
    status := .pending, sync_type := stype, time_start := none,
    time_end := none, messages_synced := 0, messages_new := 0,
    messages_updated := 0, last_history_id := none, error_message := none,
    retry_count := 0, progress_percentage := none, current_operation := none }

/-- Embedding of the per-connection body of `create_sync` (src/routers/
syncs.py lines 210-241) for one active connection.  `syncs` is the table seen
by this request at its initial joined query; `concurrent` are in-flight rows
committed by a concurrent request between that query and this request's
flush.  When the query saw an in-flight job, it is reused and nothing is
inserted.  Otherwise the insert is flushed — and the flush always succeeds:
the `syncs` table is created from src/models/sync.py by
`database.py: init_db` (`Base.metadata.create_all`), and that model declares
no uniqueness over in-flight rows, so no `IntegrityError` can be raised for a
concurrent in-flight sync and the rollback/re-query branch (lines 229-240) is
unreachable on this cause. -/
def create_sync_step (freshId uid : Nat) (stype : SyncType)
    (conn : ConnectionRow) (syncs concurrent : List SyncRow) :
    List SyncRow × SyncRow :=
  match inFlight syncs conn.id with
  | s :: _ => (syncs ++ concurrent, s)
  | [] =>
      let row := newSyncRow freshId conn.id uid stype
      (syncs ++ concurrent ++ [row], row)

/-- C4: evaluation of `create_sync` at the failing input.  Sequentially the
handler does reuse an in-flight job found by its initial query (first two
conjuncts).  But when two concurrent requests for the same connection both
run their joined query before either flush commits, both inserts succeed —
the schema created from src/models/sync.py carries no in-flight uniqueness,
so the conflict re-query the claim relies on never fires — and TWO
pending/running Sync rows for the connection are committed, violating the
at-most-one invariant. -/
theorem create_sync_no_conflict_signal :
    (create_sync_step 44 7 SyncType.manual SyncWorker.sampleConn
        [SyncWorker.sampleSyncRow] []).2 = SyncWorker.sampleSyncRow
    ∧ (create_sync_step 44 7 SyncType.manual SyncWorker.sampleConn
        [SyncWorker.sampleSyncRow] []).1 = [SyncWorker.sampleSyncRow]
    ∧ (inFlight (create_sync_step 102 7 SyncType.manual SyncWorker.sampleConn []
          [(create_sync_step 101 7 SyncType.manual SyncWorker.sampleConn [] []).2]).1
        SyncWorker.sampleConn.id).length = 2 :=
  ⟨rfl, rfl, rfl⟩

end SyncsRouter

namespace OAuthRouter

open Security

/-- Row of the `oauth_states` table exactly as src/models/oauth.py lines
23-49 declares it: `state_token` (primary key), an optional redirect target,
an optional user id, timestamps and the provider.  The `connection_id` column
is COMMENTED OUT in the model (line 31), so an `OAuth` object carries no such
attribute — yet the callback handler dereferences
`oauth_state.connection_id` (src/routers/oauth.py line 58). -/
structure OAuthStateRow where
  state_token : String
  redirect_url : Option String
  user_id : Option Nat
  created_at : Nat
  expires_at : Nat
  provider : OAuthProvider
deriving DecidableEq, Repr

/-- Outside-world inputs of one callback invocation: the `state` and `error`
query parameters and the clock.  The remote interactions (code exchange,
refresh, account lookup) need no model: the handler crashes before reaching
them on every path that would use them. -/
structure CallbackEnv where
  state : String
  error : Option String
  now : Nat
deriving DecidableEq, Repr

/-- Database state visible to the callback. -/
structure CallbackDB where
  oauthStates : List OAuthStateRow
  connections : List ConnectionRow
deriving DecidableEq, Repr

/-- Lookup of the state row by token (primary key). -/
def findState (states : List OAuthStateRow) (tok : String) : Option OAuthStateRow :=
  states.find? (fun r => r.state_token == tok)

/-- Effect of `db.delete(oauth_state)` followed by commit. -/
def deleteState (states : List OAuthStateRow) (tok : String) : List OAuthStateRow :=
  states.filter (fun r => !(r.state_token == tok))

/-- Outcome of one callback invocation: the database afterwards and the
response (`ok` carries the connection id of the success payload). -/
structure CallbackResult where
  db : CallbackDB
  response : Except HTTPError Nat
deriving Repr

/-- Detail of the uncaught exception raised at src/routers/oauth.py line 58:
the `OAuth` mapped class defines no `connection_id` attribute, so reading
`oauth_state.connection_id` raises `AttributeError`, which no handler code
catches — the framework answers 500 and the session is never committed. -/
def attributeErrorDetail : String :=
  "AttributeError: OAuth object has no attribute connection_id"

/-- Embedding of `google_oauth_callback` (src/routers/oauth.py lines 32-117).
A provider-reported `error` returns 400 before any lookup; an unknown state
token returns 400; an expired state is deleted and committed (lines 52-55).
Every remaining path then executes line 58, `Connection.id ==
oauth_state.connection_id` — and since src/models/oauth.py (line 31)
comments the `connection_id` column out, that attribute access raises
`AttributeError`: the handler aborts with nothing committed, so the
connection lookup, redirect check, token exchange, account lookup and the
persist-on-success block (lines 57-117) are all unreachable. -/
def google_oauth_callback (env : CallbackEnv) (db : CallbackDB) : CallbackResult :=
  match env.error with
  | some e => ⟨db, .error ⟨400, "Authorization failed: " ++ e⟩⟩
  | none =>
  match findState db.oauthStates env.state with
  | none => ⟨db, .error ⟨400, "Invalid state token."⟩⟩
  | some st =>
      if st.expires_at < env.now then
        ⟨⟨deleteState db.oauthStates env.state, db.connections⟩,
         .error ⟨400, "State token expired."⟩⟩
      else
        ⟨db, .error ⟨500, attributeErrorDetail⟩⟩

/-- Pending connection awaiting its OAuth callback, as created at flow
start. -/
def pendingConn : ConnectionRow :=
  ConnectionRow.mk 11 7 .gmail .pending none none none none none none 0 0 true none

/-- Valid state token `tok1`, not yet expired at time 10. -/
def c1State : OAuthStateRow :=
  OAuthStateRow.mk "tok1" none (some 7) 0 50 .gmail

/-- Callback presenting `tok1` with no provider error at time 10. -/
def c1Env : CallbackEnv := CallbackEnv.mk "tok1" none 10

/-- Database holding the state `tok1` and the pending connection. -/
def c1DB : CallbackDB := CallbackDB.mk [c1State] [pendingConn]

/-- C1: evaluation of the callback at the failing input.  On a callback
carrying a valid, unexpired state token the handler raises `AttributeError`
at the connection-lookup line and answers 500: the database is unchanged, the
pending connection stays `pending` with no account id and no stored tokens —
the persist-on-success behaviour the claim describes is unreachable in the
program. -/
theorem oauth_callback_crash_no_persist :
    (google_oauth_callback c1Env c1DB).response
        = .error (HTTPError.mk 500 attributeErrorDetail)
    ∧ (google_oauth_callback c1Env c1DB).db = c1DB
    ∧ SyncWorker.findConn (google_oauth_callback c1Env c1DB).db.connections 11
        = some pendingConn
    ∧ pendingConn.status = ConnectionStatus.pending
    ∧ pendingConn.provider_account_id = none
    ∧ pendingConn.access_token = none :=
  ⟨rfl, rfl, rfl, rfl, rfl, rfl⟩

/-- C6 counterexample: on a callback matching a stored, valid, UNEXPIRED
state the handler crashes with `AttributeError` (500) and the state row is
NOT deleted; a second callback presenting the same token crashes identically
instead of failing as an invalid state.  So the state row is not deleted on
every outcome. -/
theorem oauth_state_not_always_deleted :
    (google_oauth_callback c1Env c1DB).response
        = .error (HTTPError.mk 500 attributeErrorDetail)
    ∧ findState (google_oauth_callback c1Env c1DB).db.oauthStates "tok1"
        = some c1State
    ∧ (google_oauth_callback c1Env (google_oauth_callback c1Env c1DB).db).response
        = .error (HTTPError.mk 500 attributeErrorDetail)
    ∧ (google_oauth_callback c1Env (google_oauth_callback c1Env c1DB).db).response
        ≠ .error (HTTPError.mk 400 "Invalid state token.") := by
  refine ⟨rfl, rfl, rfl, ?_⟩
  intro h
  have hr : (google_oauth_callback c1Env (google_oauth_callback c1Env c1DB).db).response
      = .error (HTTPError.mk 500 attributeErrorDetail) := rfl
  rw [hr] at h
  injection h with h2
  injection h2 with h3 h4
  exact absurd h3 (by decide)

/-- The only outcome on which the handler deletes the state row it matched:
no provider error parameter and the state is expired (src/routers/oauth.py
lines 52-55, the sole `db.delete` reached before the line-58 crash). -/
def stateConsumed (env : CallbackEnv) (st : OAuthStateRow) : Prop :=
  env.error = none ∧ st.expires_at < env.now

theorem findState_deleteState (states : List OAuthStateRow) (tok : String) :
    findState (deleteState states tok) tok = none := by
  rw [findState, List.find?_eq_none]
  intro x hx
  rcases List.mem_filter.mp hx with ⟨_, hpx⟩
  simpa using hpx

theorem deleteState_ne (states : List OAuthStateRow) (tok : String)
    (st : OAuthStateRow) (h : findState states tok = some st) :
    deleteState states tok ≠ states := by
  intro heq
  rw [findState] at h
  have hmem : st ∈ states := List.mem_of_find?_eq_some h
  have hp := List.find?_some h
  simp only at hp
  have hmem2 : st ∈ deleteState states tok := by rw [heq]; exact hmem
  rcases List.mem_filter.mp hmem2 with ⟨_, hkeep⟩
  rw [hp] at hkeep
  simp at hkeep

/-- C6 amended: the state row matched by a callback is deleted before the
handler returns exactly when no provider error parameter is present and the
state is expired; after that deletion a re-lookup of the token finds nothing.
On every other outcome — a provider-reported error, or an unexpired state,
where the handler crashes with `AttributeError` at the connection-lookup line
so the token-exchange-failure and success deletes of the source are
unreachable — the state table is left untouched, and a second callback with
the same token does not fail as an invalid state. -/
theorem oauth_state_single_use (env : CallbackEnv) (db : CallbackDB)
    (st : OAuthStateRow)
    (hst : findState db.oauthStates env.state = some st) :
    ((google_oauth_callback env db).db.oauthStates
        = deleteState db.oauthStates env.state
      ↔ stateConsumed env st)
    ∧ (stateConsumed env st →
        findState (google_oauth_callback env db).db.oauthStates env.state = none)
    ∧ (¬ stateConsumed env st →
        (google_oauth_callback env db).db.oauthStates = db.oauthStates) := by
  have key :
      (stateConsumed env st
        ∧ (google_oauth_callback env db).db.oauthStates
            = deleteState db.oauthStates env.state)
      ∨ (¬ stateConsumed env st
        ∧ (google_oauth_callback env db).db.oauthStates = db.oauthStates) := by
    cases herr : env.error with
    | some e =>
        right
        constructor
        · rintro ⟨h1, -⟩
          rw [herr] at h1
          exact Option.noConfusion h1
        · simp [google_oauth_callback, herr]
    | none =>
        by_cases hexp : st.expires_at < env.now
        · left
          exact ⟨⟨herr, hexp⟩, by simp [google_oauth_callback, herr, hst, hexp]⟩
        · right
          constructor
          · rintro ⟨-, h2⟩
            exact hexp h2
          · simp [google_oauth_callback, herr, hst, hexp]
  refine ⟨⟨?_, ?_⟩, ?_, ?_⟩
  · intro hdel
    rcases key with ⟨hc, -⟩ | ⟨-, heq⟩
    · exact hc
    · exfalso
      rw [hdel] at heq
      exact deleteState_ne db.oauthStates env.state st hst heq
  · intro hc
    rcases key with ⟨-, heq⟩ | ⟨hnc, -⟩
    · exact heq
    · exact absurd hc hnc
  · intro hc
    rcases key with ⟨-, heq⟩ | ⟨hnc, -⟩
    · rw [heq]
      exact findState_deleteState _ _
    · exact absurd hc hnc
  · intro hnc
    rcases key with ⟨hc, -⟩ | ⟨-, heq⟩
    · exact absurd hc hnc
    · exact heq

/-- State token `tok2`, already expired at time 10. -/
def c6ExpState : OAuthStateRow :=
  OAuthStateRow.mk "tok2" none (some 7) 0 5 .gmail

/-- Callback presenting the expired `tok2` at time 10. -/
def c6Env : CallbackEnv := CallbackEnv.mk "tok2" none 10

/-- Database holding only the expired state. -/
def c6DB : CallbackDB := CallbackDB.mk [c6ExpState] []

/-- Witness instantiating `oauth_state_single_use` on the expired-state
callback, the one path that does delete. -/
theorem oauth_state_single_use_witness :
    findState c6DB.oauthStates c6Env.state = some c6ExpState
    ∧ (((google_oauth_callback c6Env c6DB).db.oauthStates
          = deleteState c6DB.oauthStates c6Env.state
        ↔ stateConsumed c6Env c6ExpState)
      ∧ (stateConsumed c6Env c6ExpState →
          findState (google_oauth_callback c6Env c6DB).db.oauthStates c6Env.state
            = none)
      ∧ (¬ stateConsumed c6Env c6ExpState →
          (google_oauth_callback c6Env c6DB).db.oauthStates = c6DB.oauthStates)) :=
  ⟨rfl, oauth_state_single_use c6Env c6DB c6ExpState rfl⟩

end OAuthRouter

end IntegrationsSvc
